import Mathlib

/-!
Verification development for the real-time session transport layer of the
BrebisKingActivity repository.

The embedding below is a shallow translation of the relevant source code:

* the participant-presence reconciliation of the Discord activity client
  (functions fetchParticipants and updateParticipants),
* the callback-list event dispatch of the WebSocket module (socket.onmessage
  together with the on/off registration functions),
* the Ably health probe with its mock fallback (checkConnectionState),
* the WebSocket address resolution (getWebSocketUrl), and
* the WebSocket connection manager itself (connect, disconnect, joinInstance,
  send, and the socket onopen/onclose/reconnect-timer callbacks), modelled as
  an explicit state machine over the module-level variables of the source
  (socket, connected, userInfo, reconnectTimer, customServerUrl) together
  with the set of WebSocket objects and pending timeouts of the runtime.

JavaScript truthiness, the readyState lifecycle of WebSocket objects
(connect does not close a previously open socket; close() moves an open or
connecting socket to a closing state whose close event is delivered later),
and the fact that the socket callbacks are closures over the module-level
variables are all preserved by the translation.
-/

/-! ## JavaScript values (for the participant payload probing) -/

/-- A JavaScript value as far as the participant-reconciliation code
inspects one: null, booleans, numbers, strings, arrays and plain objects. -/
inductive JVal where
  | jnull
  | jbool (b : Bool)
  | jnum (n : Int)
  | jstr (s : String)
  | jarr (elems : List JVal)
  | jobj (fields : List (String × JVal))

/-- JavaScript truthiness of a value ([] and \x7b\x7d are truthy, "" and 0
are falsy). -/
def JVal.truthy : JVal → Bool
  | .jnull => false
  | .jbool b => b
  | .jnum n => n != 0
  | .jstr s => s != ""
  | .jarr _ => true
  | .jobj _ => true

/-- Array.isArray. -/
def JVal.isArray : JVal → Bool
  | .jarr _ => true
  | _ => false

/-- Whether typeof v === 'object' (true for objects, arrays and null). -/
def JVal.isObjectType : JVal → Bool
  | .jobj _ => true
  | .jarr _ => true
  | .jnull => true
  | _ => false

/-- Property access v[k]: some value when the field is present, none
(undefined) otherwise. -/
def JVal.getField : JVal → String → Option JVal
  | .jobj fields, k => fields.lookup k
  | _, _ => none

/-- Truthiness of the property access v[k] (undefined is falsy). -/
def JVal.fieldTruthy (v : JVal) (k : String) : Bool :=
  match v.getField k with
  | some x => x.truthy
  | none => false

/-- The shape-probing of fetchParticipants in the activity client: a bare
array is taken as is; otherwise an object is probed for a truthy users
field, then a truthy participants field; anything else resets the
participants to the empty array. Returns the new value of the participants
variable. -/
def fetchParticipantsResult (response : JVal) : JVal :=
  if response.isArray then response
  else if response.truthy && response.isObjectType then
    if response.fieldTruthy "users" then (response.getField "users").getD .jnull
    else if response.fieldTruthy "participants" then
      (response.getField "participants").getD .jnull
    else .jarr []
  else .jarr []

/-- The shape-probing of updateParticipants: identical probe order, except
that an unrecognized update returns early and leaves the previous
participants value unchanged. Returns the new value of the participants
variable given its previous value. -/
def updateParticipantsResult (prev update : JVal) : JVal :=
  if update.isArray then update
  else if update.truthy && update.isObjectType then
    if update.fieldTruthy "users" then (update.getField "users").getD .jnull
    else if update.fieldTruthy "participants" then
      (update.getField "participants").getD .jnull
    else prev
  else prev

/-! ## Event dispatch of the WebSocket module -/

/-- An event handler as the dispatch code can observe it: an identifier and
whether calling it raises an exception. -/
structure Handler where
  id : Nat
  throws : Bool
deriving DecidableEq, Repr

/-- handlers.forEach(handler -- handler(...)) as executed inside the single
try/catch of socket.onmessage: handlers run in list order; the first
handler that raises aborts the iteration and its error is caught by the
surrounding catch. Returns the identifiers of the handlers that were
invoked and whether an error was caught. -/
def dispatchHandlers : List Handler → List Nat × Bool
  | [] => ([], false)
  | h :: rest =>
    if h.throws then ([h.id], true)
    else
      let r := dispatchHandlers rest
      (h.id :: r.1, r.2)

/-- The handler identifiers the dispatch invokes, written as the spec reads:
the handlers in subscription order up to and including the first one that
raises. -/
def invokedUpToFirstThrow : List Handler → List Nat
  | [] => []
  | h :: rest => if h.throws then [h.id] else h.id :: invokedUpToFirstThrow rest

/-- Registration (the on function): the callback is pushed at the end of the
handler list of its event kind. -/
def registerHandler (hs : List Handler) (h : Handler) : List Handler := hs ++ [h]

/-- Deregistration (the off function): handlers.filter, keeping the
handlers that are not the given callback. -/
def removeHandler (hs : List Handler) (h : Handler) : List Handler :=
  hs.filter (fun x => x != h)

/-! ## Ably health probe and mock fallback -/

/-- The state of the Ably health probe: the connectionAttempts counter, the
flag that the mock fallback object has been installed on
window.__mockAblyFallback, and the delay of the pending setTimeout for the
next checkConnectionState call, if one is scheduled. -/
structure HealthState where
  connectionAttempts : Nat
  mockInstalled : Bool
  pendingCheck : Option Nat
deriving DecidableEq, Repr

/-- The probe state right after Ably initialization:
setTimeout(checkConnectionState, 5000). -/
def initHealth : HealthState := ⟨0, false, some 5000⟩

/-- One firing of the checkConnectionState timeout, parameterized by whether
ably.connection.state is 'connected' at this check. The counter is
incremented first; a connected state ends the probing; after more than 3
attempts the mock is installed and no further check is scheduled; otherwise
the next check is scheduled with setTimeout(checkConnectionState, 5000). A
state with no pending timeout cannot fire. -/
def fireHealthCheck (connectedNow : Bool) (s : HealthState) : HealthState :=
  match s.pendingCheck with
  | none => s
  | some _ =>
    let s' : HealthState := ⟨s.connectionAttempts + 1, s.mockInstalled, none⟩
    if connectedNow then s'
    else if s'.connectionAttempts > 3 then ⟨s'.connectionAttempts, true, none⟩
    else ⟨s'.connectionAttempts, s'.mockInstalled, some 5000⟩

/-- Run the probe over a sequence of observed connection states, one per
timer firing. -/
def runChecks (obs : List Bool) (s : HealthState) : HealthState :=
  obs.foldl (fun s b => fireHealthCheck b s) s

/-- connection.state of the mock Ably object. -/
def mockConnectionState : String := "connected"

/-- Return value of subscribe on a channel of the mock Ably object. -/
def mockSubscribeResult : Bool := true

/-- Return value of publish on a channel of the mock Ably object. -/
def mockPublishResult : Bool := true

/-! ## String helpers mirroring the JavaScript string methods -/

/-- List-of-characters core of String.startsWith as JavaScript uses it. -/
def isPrefixL : List Char → List Char → Bool
  | [], _ => true
  | _ :: _, [] => false
  | a :: as, b :: bs => a == b && isPrefixL as bs

/-- s.startsWith(p). -/
def jsStartsWith (s p : String) : Bool := isPrefixL p.data s.data

/-- List-of-characters suffix check. -/
def isSuffixL (p s : List Char) : Bool := isPrefixL p.reverse s.reverse

/-- s.endsWith(p). -/
def jsEndsWith (s p : String) : Bool := isSuffixL p.data s.data

/-- Substring containment on character lists: the second list occurs
somewhere in the first. -/
def strIncludesL : List Char → List Char → Bool
  | [], sub => isPrefixL sub []
  | a :: rest, sub => isPrefixL sub (a :: rest) || strIncludesL rest sub

/-- s.includes(sub). -/
def strIncludes (s sub : String) : Bool := strIncludesL s.data sub.data

/-- The characters of host before the first dot: host.split('.')[0]. -/
def takeUntilDot : List Char → List Char
  | [] => []
  | c :: rest => if c == '.' then [] else c :: takeUntilDot rest

/-- s.replace(/^https?:\/\//, ''). -/
def stripHttpScheme (s : String) : String :=
  if jsStartsWith s "https://" then String.mk (s.data.drop 8)
  else if jsStartsWith s "http://" then String.mk (s.data.drop 7)
  else s

/-- JavaScript v || null on an optional string (an empty string is falsy),
as used for customServerUrl = serverUrl || null and for the truthiness
check if (activityId). -/
def jsOrNull : Option String → Option String
  | some s => if s == "" then none else some s
  | none => none

/-! ## Address resolution (getWebSocketUrl) -/

/-- The browser environment getWebSocketUrl reads: window.location.protocol,
window.location.host and the optional VITE_WS_HOST build variable. -/
structure Env where
  pageProtocol : String
  pageHost : String
  viteWsHost : Option String
deriving DecidableEq, Repr

/-- getWebSocketUrl of the WebSocket module, as a function of the browser
environment and the current customServerUrl module variable. -/
def getWebSocketUrl (env : Env) (customServerUrl : Option String) : String :=
  match customServerUrl with
  | some custom =>
    let protocol := if jsStartsWith custom "https" then "wss:" else "ws:"
    let serverUrl := stripHttpScheme custom
    let serverUrl :=
      if jsEndsWith serverUrl "/ws" then serverUrl
      else if jsEndsWith serverUrl "/" then serverUrl ++ "ws"
      else serverUrl ++ "/ws"
    protocol ++ "//" ++ serverUrl
  | none =>
    let isDiscordHost := strIncludes env.pageHost "discordsays.com"
    if isDiscordHost then
      let clientId := String.mk (takeUntilDot env.pageHost.data)
      let protocol := if env.pageProtocol == "https:" then "wss:" else "ws:"
      protocol ++ "//" ++ clientId ++ ".discordsays.com/.proxy/ws"
    else
      let protocol := if env.pageProtocol == "https:" then "wss:" else "ws:"
      let host :=
        match env.viteWsHost with
        | some h => if h == "" then env.pageHost else h
        | none => env.pageHost
      protocol ++ "//" ++ host ++ "/ws"

/-! ## The WebSocket connection manager -/

/-- The user info object sent in the join frame (activityId is only present
when truthy). -/
structure UserInfo where
  userId : String
  username : String
  instanceId : Option String
  activityId : Option String
deriving DecidableEq, Repr

/-- readyState of a WebSocket object. -/
inductive ChanState where
  | connecting
  | opened
  | closing
  | closed
deriving DecidableEq, Repr

/-- A WebSocket object created by the module: its identity, the URL it was
opened against, and its readyState. -/
structure Channel where
  id : Nat
  url : String
  state : ChanState
deriving DecidableEq, Repr

/-- A pending setTimeout of the reconnect logic: its handle and delay in
milliseconds. -/
structure Timer where
  id : Nat
  delayMs : Nat
deriving DecidableEq, Repr

/-- The whole observable state: every WebSocket object ever created (with
its readyState), the pending timeouts of the runtime, fresh-identifier
counters, the module-level variables of the WebSocket module, and the join
frames actually handed to socket.send (socket id, frame type, payload). -/
structure World where
  channels : List Channel
  timers : List Timer
  nextChanId : Nat
  nextTimerId : Nat
  socket : Option Nat
  connected : Bool
  userInfo : Option UserInfo
  reconnectTimer : Option Nat
  customServerUrl : Option String
  sentFrames : List (Nat × String × UserInfo)
deriving DecidableEq, Repr

/-- The state at module load: no socket, no identity, no timer. -/
def initWorld : World :=
  { channels := [], timers := [], nextChanId := 0, nextTimerId := 0,
    socket := none, connected := false, userInfo := none,
    reconnectTimer := none, customServerUrl := none, sentFrames := [] }

/-- Update the readyState of the WebSocket object with the given identity. -/
def setChanState (cid : Nat) (st : ChanState) (l : List Channel) : List Channel :=
  l.map (fun c => if c.id == cid then { c with state := st } else c)

/-- if (reconnectTimer) \x7b clearTimeout(reconnectTimer); reconnectTimer =
null; \x7d -/
def clearReconnectTimer (w : World) : World :=
  match w.reconnectTimer with
  | some h => { w with timers := w.timers.filter (fun t => t.id != h), reconnectTimer := none }
  | none => w

/-- connect(user): stores the identity, clears a pending reconnect timer and
opens a new WebSocket against getWebSocketUrl(). The previously referenced
socket is neither closed nor otherwise touched. -/
def connect (env : Env) (user : UserInfo) (w : World) : World :=
  let w1 := { w with userInfo := some user }
  let w2 := clearReconnectTimer w1
  let url := getWebSocketUrl env w2.customServerUrl
  { w2 with
    channels := w2.channels ++ [{ id := w2.nextChanId, url := url, state := .connecting }],
    socket := some w2.nextChanId,
    nextChanId := w2.nextChanId + 1 }

/-- disconnect(): if the referenced socket is OPEN or CONNECTING, call
close() on it (its readyState becomes CLOSING; the close event is delivered
later); clear a pending reconnect timer; null the socket reference and the
connected flag. The userInfo variable is not touched. -/
def disconnect (w : World) : World :=
  let w1 :=
    match w.socket with
    | some cid =>
      match w.channels.find? (fun c => c.id == cid) with
      | some c =>
        if c.state == .opened || c.state == .connecting then
          { w with channels := setChanState cid .closing w.channels }
        else w
      | none => w
    | none => w
  let w2 := clearReconnectTimer w1
  { w2 with socket := none, connected := false }

/-- send(type, data) restricted to the join frame sent by the onopen
callback: fails unless the currently referenced socket exists and is OPEN,
otherwise hands the frame to that socket. Returns the updated state and the
boolean result of send. -/
def sendJoinFrame (w : World) (payload : UserInfo) : World × Bool :=
  match w.socket with
  | some cid =>
    match w.channels.find? (fun c => c.id == cid) with
    | some c =>
      if c.state == .opened then
        ({ w with sentFrames := w.sentFrames ++ [(cid, "join", payload)] }, true)
      else (w, false)
    | none => (w, false)
  | none => (w, false)

/-- Delivery of the open event of WebSocket object cid (only a CONNECTING
socket can fire open). The onopen callback is a closure over the
module-level variables: connected = true, then send('join', userInfo) when
an identity is stored. -/
def evtOpen (w : World) (cid : Nat) : World :=
  match w.channels.find? (fun c => c.id == cid) with
  | some c =>
    if c.state == .connecting then
      let w1 := { w with channels := setChanState cid .opened w.channels, connected := true }
      match w1.userInfo with
      | some u => (sendJoinFrame w1 u).1
      | none => w1
    else w
  | none => w

/-- Delivery of the close event of WebSocket object cid (fires once, from
any not-yet-closed readyState: connection failure, remote close, or a
completed close()). The onclose callback: connected = false, socket = null,
and when an identity is stored, reconnectTimer = setTimeout(..., 5000); an
already pending reconnect timeout is overwritten, not cancelled. -/
def evtClose (w : World) (cid : Nat) : World :=
  match w.channels.find? (fun c => c.id == cid) with
  | some c =>
    if c.state == .closed then w
    else
      let w1 := { w with channels := setChanState cid .closed w.channels,
                         connected := false, socket := none }
      match w1.userInfo with
      | some _ =>
        { w1 with timers := w1.timers ++ [{ id := w1.nextTimerId, delayMs := 5000 }],
                  reconnectTimer := some w1.nextTimerId,
                  nextTimerId := w1.nextTimerId + 1 }
      | none => w1
  | none => w

/-- Firing of a pending timeout: the reconnect callback runs connect
(userInfo) when an identity is stored. Only a pending timeout can fire, and
firing consumes it. -/
def evtTimer (env : Env) (tid : Nat) (w : World) : World :=
  if w.timers.any (fun t => t.id == tid) then
    let w1 := { w with timers := w.timers.filter (fun t => t.id != tid) }
    match w1.userInfo with
    | some u => connect env u w1
    | none => w1
  else w

/-- joinInstance(instanceId, activityId, userId, username, serverUrl):
disconnect, install serverUrl || null as customServerUrl, build the new
user info (activityId only when truthy), connect, return true. -/
def joinInstance (env : Env) (instanceId : String) (activityId : Option String)
    (userId username : String) (serverUrl : Option String) (w : World) : World × Bool :=
  let w1 := disconnect w
  let w2 := { w1 with customServerUrl := jsOrNull serverUrl }
  let info : UserInfo :=
    { userId := userId, username := username,
      instanceId := some instanceId, activityId := jsOrNull activityId }
  (connect env info w2, true)

/-- One step of the cooperative event loop: an API call by the application
or the delivery of a socket/timer callback. -/
inductive Step where
  | callConnect (user : UserInfo)
  | callJoin (instanceId : String) (activityId : Option String)
      (userId username : String) (serverUrl : Option String)
  | callDisconnect
  | evOpen (cid : Nat)
  | evClose (cid : Nat)
  | evTimer (tid : Nat)
deriving DecidableEq, Repr

/-- Apply one step to the world (callbacks whose precondition does not hold,
such as a timer that is not pending, do nothing). -/
def applyStep (env : Env) (s : Step) (w : World) : World :=
  match s with
  | .callConnect user => connect env user w
  | .callJoin iid aid uid un su => (joinInstance env iid aid uid un su w).1
  | .callDisconnect => disconnect w
  | .evOpen cid => evtOpen w cid
  | .evClose cid => evtClose w cid
  | .evTimer tid => evtTimer env tid w

/-- Run a sequence of steps from a state. -/
def run (env : Env) (steps : List Step) (w : World) : World :=
  steps.foldl (fun w s => applyStep env s w) w

/-- A WebSocket object that is live: readyState CONNECTING or OPEN. -/
def liveB (c : Channel) : Bool := c.state == .connecting || c.state == .opened

/-- Steps that are a joinInstance call or an open-event delivery. -/
def stepJoinOrOpen : Step → Bool
  | .callJoin _ _ _ _ _ => true
  | .evOpen _ => true
  | _ => false

/-- Structural invariant of the connection manager: channel identifiers are
bounded by the fresh counter and pairwise distinct, and every live channel
is the one the socket variable references. -/
def ConnInv (w : World) : Prop :=
  (∀ c ∈ w.channels, c.id < w.nextChanId) ∧
  w.channels.Pairwise (fun a b => a.id ≠ b.id) ∧
  (∀ c ∈ w.channels, liveB c = true → w.socket = some c.id)

/-- The fixed concrete environment used for the concrete scenarios. -/
def env0 : Env := { pageProtocol := "https:", pageHost := "localhost:5173", viteWsHost := none }

/-- The identity used in the concrete scenarios. -/
def user0 : UserInfo :=
  { userId := "u1", username := "Alice", instanceId := some "inst-1", activityId := none }

/-! ## Helper lemmas -/

theorem fireHealthCheck_of_none {s : HealthState} (h : s.pendingCheck = none) (b : Bool) :
    fireHealthCheck b s = s := by
  unfold fireHealthCheck
  rw [h]

theorem runChecks_of_none {s : HealthState} (h : s.pendingCheck = none) (obs : List Bool) :
    runChecks obs s = s := by
  induction obs with
  | nil => rfl
  | cons b rest ih =>
    show runChecks rest (fireHealthCheck b s) = s
    rw [fireHealthCheck_of_none h, ih]

theorem runChecks_mock_pending (obs : List Bool) :
    ∀ s : HealthState, (s.mockInstalled = true → s.pendingCheck = none) →
      ((runChecks obs s).mockInstalled = true → (runChecks obs s).pendingCheck = none) := by
  induction obs with
  | nil => exact fun s h => h
  | cons b rest ih =>
    intro s h
    show (runChecks rest (fireHealthCheck b s)).mockInstalled = true →
      (runChecks rest (fireHealthCheck b s)).pendingCheck = none
    apply ih
    cases hp : s.pendingCheck with
    | none => rw [fireHealthCheck_of_none hp]; exact h
    | some d =>
      unfold fireHealthCheck
      simp only [hp]
      split
      · intro _; rfl
      · split
        · intro _; rfl
        · intro hm; exact absurd (h hm) (by simp [hp])

theorem dispatchHandlers_eq (hs : List Handler) :
    dispatchHandlers hs = (invokedUpToFirstThrow hs, hs.any (·.throws)) := by
  induction hs with
  | nil => rfl
  | cons h rest ih =>
    unfold dispatchHandlers invokedUpToFirstThrow
    cases ht : h.throws with
    | true => simp [ht]
    | false => simp [ht, ih]

theorem invokedUpToFirstThrow_of_ok {hs : List Handler} (hok : ∀ h ∈ hs, h.throws = false) :
    invokedUpToFirstThrow hs = hs.map (·.id) := by
  induction hs with
  | nil => rfl
  | cons h rest ih =>
    have hh := hok h (List.mem_cons_self h rest)
    simp [invokedUpToFirstThrow, hh,
      ih (fun x hx => hok x (List.mem_cons_of_mem h hx))]

theorem runChecks_append (a b : List Bool) (s : HealthState) :
    runChecks (a ++ b) s = runChecks b (runChecks a s) :=
  List.foldl_append ..

theorem runChecks_replicate_ge (m : Nat) :
    runChecks (List.replicate (4 + m) false) initHealth = ⟨4, true, none⟩ := by
  rw [List.replicate_add, runChecks_append]
  have h4 : runChecks (List.replicate 4 false) initHealth = ⟨4, true, none⟩ := rfl
  rw [h4, runChecks_of_none rfl]

/-! ## Claim theorems: presence, event dispatch, health probe -/

/-- C6: the snapshot reconciliation is shape-tolerant: a bare array, an
object with a users field and an object with a participants field all yield
the same participant list, the two field names are probed in that fixed
order, and an object with only unrecognized fields yields the empty list
(the function is total, so no exception is raised). -/
theorem C6_snapshot_shapes :
    fetchParticipantsResult (.jarr [.jstr "a", .jstr "b"]) = .jarr [.jstr "a", .jstr "b"] ∧
    fetchParticipantsResult (.jobj [("users", .jarr [.jstr "a", .jstr "b"])]) =
      .jarr [.jstr "a", .jstr "b"] ∧
    fetchParticipantsResult (.jobj [("participants", .jarr [.jstr "a", .jstr "b"])]) =
      .jarr [.jstr "a", .jstr "b"] ∧
    fetchParticipantsResult (.jobj [("unknown_field", .jarr [.jstr "a", .jstr "b"])]) =
      .jarr [] ∧
    fetchParticipantsResult
      (.jobj [("users", .jarr [.jstr "a"]), ("participants", .jarr [.jstr "b"])]) =
      .jarr [.jstr "a"] :=
  ⟨rfl, rfl, rfl, rfl, rfl⟩

/-- C7: an incremental participants update that is neither an array nor an
object carrying a users or participants field is discarded entirely: the
previous participant list is returned unchanged, whatever it was. -/
theorem C7_unrecognized_update_retains (prev update : JVal)
    (h1 : update.isArray = false)
    (h2 : update.getField "users" = none)
    (h3 : update.getField "participants" = none) :
    updateParticipantsResult prev update = prev := by
  simp [updateParticipantsResult, JVal.fieldTruthy, h1, h2, h3]

/-- Witness for C7 at a concrete unrecognized update. -/
theorem C7_witness :
    updateParticipantsResult (.jarr [.jstr "a", .jstr "b"])
      (.jobj [("unknown_field", .jarr [])]) = .jarr [.jstr "a", .jstr "b"] :=
  C7_unrecognized_update_retains _ _ rfl rfl rfl

/-- C8 counterexample: subscribe a raising handler and then a second
handler; dispatching the event invokes only the first handler, so the
remaining subscribed handler does not run, refuting per-handler error
isolation as claimed. -/
theorem C8_counterexample :
    dispatchHandlers (registerHandler (registerHandler [] ⟨1, true⟩) ⟨2, false⟩) =
      ([1], true) ∧
    ¬ (2 ∈ (dispatchHandlers (registerHandler (registerHandler [] ⟨1, true⟩) ⟨2, false⟩)).1) := by
  decide

/-- C8 amended: publishing an inbound event invokes the handlers for its
kind synchronously in subscription order up to and including the first
handler that raises; the raised error is caught and reported by the
message-level catch (so the connection survives), but the handlers after
the raising one do not run. When no handler raises, every handler runs in
subscription order and no error is reported. -/
theorem C8_amended_dispatch :
    (∀ hs : List Handler,
      dispatchHandlers hs = (invokedUpToFirstThrow hs, hs.any (·.throws))) ∧
    (∀ hs : List Handler, (∀ h ∈ hs, h.throws = false) →
      dispatchHandlers hs = (hs.map (·.id), false)) := by
  refine ⟨dispatchHandlers_eq, fun hs hok => ?_⟩
  rw [dispatchHandlers_eq hs, invokedUpToFirstThrow_of_ok hok]
  have : hs.any (·.throws) = false :=
    List.any_eq_false.mpr (fun x hx => by simp [hok x hx])
  rw [this]

/-- Witness for C8 amended at a concrete handler list without raising
handlers. -/
theorem C8_amended_witness :
    dispatchHandlers [⟨1, false⟩, ⟨2, false⟩] = ([1, 2], false) :=
  C8_amended_dispatch.2 [⟨1, false⟩, ⟨2, false⟩] (by decide)

/-- C9: the Ably health probe fires on a fixed 5000 ms interval; with the
relay never connected the mock fallback is installed exactly at the fourth
check (more than 3 attempts) and once installed no further check is pending,
so the degradation is one-way; a check that observes the connected state
stops the probing without installing the mock; and the mock relay reports a
connected state and trivially succeeding publish/subscribe operations. -/
theorem C9_health_probe :
    (∀ n : Nat, (runChecks (List.replicate n false) initHealth).mockInstalled =
      decide (4 ≤ n)) ∧
    (∀ (s : HealthState) (b : Bool), s.pendingCheck = none → fireHealthCheck b s = s) ∧
    (∀ obs : List Bool, (runChecks obs initHealth).mockInstalled = true →
      (runChecks obs initHealth).pendingCheck = none) ∧
    (∀ s : HealthState, (fireHealthCheck true s).pendingCheck = none ∧
      (fireHealthCheck true s).mockInstalled = s.mockInstalled) ∧
    (initHealth.pendingCheck = some 5000 ∧
      ∀ (s : HealthState) (b : Bool), (fireHealthCheck b s).pendingCheck = none ∨
        (fireHealthCheck b s).pendingCheck = some 5000) ∧
    (mockConnectionState = "connected" ∧ mockSubscribeResult = true ∧
      mockPublishResult = true) := by
  refine ⟨?_, ?_, ?_, ?_, ⟨rfl, ?_⟩, ⟨rfl, rfl, rfl⟩⟩
  · intro n
    rcases Nat.lt_or_ge n 4 with h | h
    · interval_cases n <;> decide
    · obtain ⟨m, rfl⟩ : ∃ m, n = 4 + m := ⟨n - 4, by omega⟩
      rw [runChecks_replicate_ge]
      have : 4 ≤ 4 + m := Nat.le_add_right 4 m
      simp [this]
  · exact fun s b h => fireHealthCheck_of_none h b
  · exact fun obs => runChecks_mock_pending obs initHealth
      (fun h => absurd h (by decide))
  · intro s
    unfold fireHealthCheck
    cases hp : s.pendingCheck <;> simp [hp]
  · intro s b
    unfold fireHealthCheck
    cases hp : s.pendingCheck with
    | none => simp [hp]
    | some d =>
      simp only [hp]
      split
      · simp
      · split <;> simp

/-- Witness for C9: a state with no pending check is inert, and after four
failed checks from the initial state nothing further is pending. -/
theorem C9_health_probe_witness :
    fireHealthCheck false ⟨7, true, none⟩ = ⟨7, true, none⟩ ∧
    (runChecks [false, false, false, false] initHealth).pendingCheck = none :=
  ⟨C9_health_probe.2.1 ⟨7, true, none⟩ false rfl,
   C9_health_probe.2.2.1 [false, false, false, false] rfl⟩

theorem isPrefixL_append_self (p l : List Char) : isPrefixL p (p ++ l) = true := by
  induction p with
  | nil => rfl
  | cons a as ih => simp [isPrefixL, ih]

theorem isPrefixL_extend {p s : List Char} (h : isPrefixL p s = true) (l : List Char) :
    isPrefixL p (s ++ l) = true := by
  induction p generalizing s with
  | nil => rfl
  | cons a as ih =>
    cases s with
    | nil => exact absurd h (by simp [isPrefixL])
    | cons b bs =>
      simp only [List.cons_append, isPrefixL, Bool.and_eq_true] at h ⊢
      exact ⟨h.1, ih h.2⟩

theorem isPrefixL_exists {p s : List Char} (h : isPrefixL p s = true) :
    ∃ t, s = p ++ t := by
  induction p generalizing s with
  | nil => exact ⟨s, rfl⟩
  | cons a as ih =>
    cases s with
    | nil => exact absurd h (by simp [isPrefixL])
    | cons b bs =>
      simp only [isPrefixL, Bool.and_eq_true, beq_iff_eq] at h
      obtain ⟨t, ht⟩ := ih h.2
      exact ⟨t, by simp [ht, h.1]⟩

theorem isSuffixL_append_self (p l : List Char) : isSuffixL p (l ++ p) = true := by
  unfold isSuffixL
  rw [List.reverse_append]
  exact isPrefixL_append_self _ _

theorem isSuffixL_extend {p s : List Char} (h : isSuffixL p s = true) (l : List Char) :
    isSuffixL p (l ++ s) = true := by
  unfold isSuffixL at h ⊢
  rw [List.reverse_append]
  exact isPrefixL_extend h _

theorem isSuffixL_exists {p s : List Char} (h : isSuffixL p s = true) :
    ∃ t, s = t ++ p := by
  unfold isSuffixL at h
  obtain ⟨t, ht⟩ := isPrefixL_exists h
  refine ⟨t.reverse, ?_⟩
  have h2 := congrArg List.reverse ht
  simpa [List.reverse_append] using h2

theorem jsEndsWith_append_ws (s : String) : jsEndsWith (s ++ "/ws") "/ws" = true := by
  unfold jsEndsWith
  rw [String.data_append]
  exact isSuffixL_append_self _ _

theorem jsEndsWith_prepend {x : String} (h : jsEndsWith x "/ws" = true) (p : String) :
    jsEndsWith (p ++ x) "/ws" = true := by
  unfold jsEndsWith at h ⊢
  rw [String.data_append]
  exact isSuffixL_extend h _

theorem jsEndsWith_slash_ws {s : String} (h : jsEndsWith s "/" = true) :
    jsEndsWith (s ++ "ws") "/ws" = true := by
  unfold jsEndsWith at h ⊢
  rw [String.data_append]
  obtain ⟨t, ht⟩ := isSuffixL_exists h
  rw [ht, List.append_assoc]
  have hconcat : ("/".data : List Char) ++ "ws".data = "/ws".data := rfl
  rw [hconcat]
  exact isSuffixL_append_self _ _

theorem jsStartsWith_wss (rest : String) :
    jsStartsWith ("wss:" ++ "//" ++ rest) "wss:" = true := by
  unfold jsStartsWith
  rw [String.data_append, String.data_append]
  exact isPrefixL_append_self "wss:".data ("//".data ++ rest.data)

theorem jsStartsWith_ws_not_wss (rest : String) :
    jsStartsWith ("ws:" ++ "//" ++ rest) "wss:" = false := by
  unfold jsStartsWith
  rw [String.data_append, String.data_append]
  rfl

/-- C4: for every environment and override, the resolved channel URL ends
in the canonical /ws suffix; without an override the channel scheme is the
secure wss: exactly when the page protocol is the secure https:; with an
override the channel scheme is the secure wss: exactly when the override
itself declares the https scheme (the source tests startsWith("https")). -/
theorem C4_resolver_scheme_and_suffix (env : Env) (o : String) :
    jsEndsWith (getWebSocketUrl env none) "/ws" = true ∧
    jsEndsWith (getWebSocketUrl env (some o)) "/ws" = true ∧
    jsStartsWith (getWebSocketUrl env none) "wss:" = (env.pageProtocol == "https:") ∧
    jsStartsWith (getWebSocketUrl env (some o)) "wss:" = jsStartsWith o "https" := by
  refine ⟨?_, ?_, ?_, ?_⟩
  · simp only [getWebSocketUrl]
    cases hd : strIncludes env.pageHost "discordsays.com" <;>
      cases hp : (env.pageProtocol == "https:") <;>
        simp only [hd, hp, if_true, if_false, Bool.false_eq_true, ite_true, ite_false] <;>
          exact jsEndsWith_prepend (by rfl) _
  · simp only [getWebSocketUrl]
    cases hw : jsEndsWith (stripHttpScheme o) "/ws"
    · cases hs : jsEndsWith (stripHttpScheme o) "/" <;>
        cases hp : jsStartsWith o "https" <;>
          simp only [hw, hs, hp, Bool.false_eq_true, ite_true, ite_false] <;>
            first
              | exact jsEndsWith_prepend (jsEndsWith_slash_ws hs) _
              | exact jsEndsWith_prepend (jsEndsWith_append_ws _) _
    · cases hp : jsStartsWith o "https" <;>
        simp only [hw, hp, Bool.false_eq_true, ite_true, ite_false] <;>
          exact jsEndsWith_prepend hw _
  · simp only [getWebSocketUrl]
    cases hd : strIncludes env.pageHost "discordsays.com" <;>
      cases hp : (env.pageProtocol == "https:") <;>
        simp only [hd, hp, if_true, if_false, Bool.false_eq_true, ite_true, ite_false]
    · exact jsStartsWith_ws_not_wss _
    · exact jsStartsWith_wss _
    · exact jsStartsWith_ws_not_wss _
    · exact jsStartsWith_wss _
  · simp only [getWebSocketUrl]
    cases hp : jsStartsWith o "https" <;>
      simp only [hp, Bool.false_eq_true, ite_true, ite_false]
    · exact jsStartsWith_ws_not_wss _
    · exact jsStartsWith_wss _

theorem clearReconnectTimer_channels (w : World) :
    (clearReconnectTimer w).channels = w.channels := by
  unfold clearReconnectTimer
  cases h : w.reconnectTimer <;> simp [h]

theorem clearReconnectTimer_socket (w : World) :
    (clearReconnectTimer w).socket = w.socket := by
  unfold clearReconnectTimer
  cases h : w.reconnectTimer <;> simp [h]

theorem clearReconnectTimer_nextChanId (w : World) :
    (clearReconnectTimer w).nextChanId = w.nextChanId := by
  unfold clearReconnectTimer
  cases h : w.reconnectTimer <;> simp [h]

theorem clearReconnectTimer_userInfo (w : World) :
    (clearReconnectTimer w).userInfo = w.userInfo := by
  unfold clearReconnectTimer
  cases h : w.reconnectTimer <;> simp [h]

theorem clearReconnectTimer_customServerUrl (w : World) :
    (clearReconnectTimer w).customServerUrl = w.customServerUrl := by
  unfold clearReconnectTimer
  cases h : w.reconnectTimer <;> simp [h]

theorem clearReconnectTimer_none (w : World) :
    (clearReconnectTimer w).reconnectTimer = none := by
  unfold clearReconnectTimer
  cases h : w.reconnectTimer <;> simp [h]

theorem setChan_id (cid : Nat) (st : ChanState) (c : Channel) :
    (if c.id == cid then { c with state := st } else c).id = c.id := by
  split <;> rfl

theorem setChanState_pairwise {l : List Channel}
    (h : l.Pairwise (fun a b => a.id ≠ b.id)) (cid : Nat) (st : ChanState) :
    (setChanState cid st l).Pairwise (fun a b => a.id ≠ b.id) := by
  unfold setChanState
  rw [List.pairwise_map]
  refine h.imp ?_
  intro a b hab
  rw [setChan_id, setChan_id]
  exact hab

theorem mem_setChanState {c : Channel} {cid : Nat} {st : ChanState} {l : List Channel}
    (h : c ∈ setChanState cid st l) :
    ∃ c' ∈ l, c = (if c'.id == cid then { c' with state := st } else c') := by
  unfold setChanState at h
  obtain ⟨c', hc', heq⟩ := List.mem_map.mp h
  exact ⟨c', hc', heq.symm⟩

theorem pairwise_id_eq {l : List Channel} (hp : l.Pairwise (fun a b => a.id ≠ b.id))
    {c c' : Channel} (hc : c ∈ l) (hc' : c' ∈ l) (h : c.id = c'.id) : c = c' := by
  induction l with
  | nil => cases hc
  | cons a t ih =>
    rcases List.mem_cons.mp hc with rfl | hct <;> rcases List.mem_cons.mp hc' with rfl | hct'
    · rfl
    · exact absurd h ((List.pairwise_cons.mp hp).1 c' hct')
    · exact absurd h.symm ((List.pairwise_cons.mp hp).1 c hct)
    · exact ih (List.pairwise_cons.mp hp).2 hct hct'

theorem sendJoinFrame_eq (w : World) (u : UserInfo) :
    ∃ fs, (sendJoinFrame w u).1 = { w with sentFrames := fs } := by
  obtain ⟨chs, tms, nci, nti, sck, cn, ui, rt, cs, sf⟩ := w
  cases sck with
  | none => exact ⟨sf, rfl⟩
  | some cid =>
    unfold sendJoinFrame
    dsimp only
    cases hf : chs.find? (fun c => c.id == cid) with
    | none => exact ⟨sf, rfl⟩
    | some c =>
      dsimp only
      by_cases h : (c.state == .opened) = true
      · rw [if_pos h]
        exact ⟨sf ++ [(cid, "join", u)], rfl⟩
      · rw [if_neg h]
        exact ⟨sf, rfl⟩


theorem setChanState_map_id (cid : Nat) (st : ChanState) (l : List Channel) :
    (setChanState cid st l).map (·.id) = l.map (·.id) := by
  induction l with
  | nil => rfl
  | cons a t ih =>
    show ((if a.id == cid then { a with state := st } else a).id) ::
        (setChanState cid st t).map (·.id) = a.id :: t.map (·.id)
    rw [setChan_id, ih]

theorem disconnect_channels (w : World) :
    (disconnect w).channels =
      (match w.socket with
       | some cid =>
         match w.channels.find? (fun c => c.id == cid) with
         | some c =>
           if c.state == .opened || c.state == .connecting
           then setChanState cid .closing w.channels else w.channels
         | none => w.channels
       | none => w.channels) := by
  unfold disconnect
  cases hs : w.socket with
  | none => exact clearReconnectTimer_channels _
  | some cid =>
    dsimp only
    cases hf : w.channels.find? (fun c => c.id == cid) with
    | none => exact clearReconnectTimer_channels _
    | some c =>
      dsimp only
      by_cases hl : (c.state == .opened || c.state == .connecting) = true
      · rw [if_pos hl, if_pos hl]
        exact clearReconnectTimer_channels _
      · rw [if_neg hl, if_neg hl]
        exact clearReconnectTimer_channels _

theorem disconnect_nextChanId (w : World) :
    (disconnect w).nextChanId = w.nextChanId := by
  unfold disconnect
  rw [clearReconnectTimer_nextChanId]
  cases hs : w.socket with
  | none => rfl
  | some cid =>
    dsimp only
    cases hf : w.channels.find? (fun c => c.id == cid) with
    | none => rfl
    | some c =>
      dsimp only
      by_cases hl : (c.state == .opened || c.state == .connecting) = true
      · rw [if_pos hl]
      · rw [if_neg hl]

theorem disconnect_channels_map_id (w : World) :
    (disconnect w).channels.map (·.id) = w.channels.map (·.id) := by
  rw [disconnect_channels]
  cases hs : w.socket with
  | none => rfl
  | some cid =>
    dsimp only
    cases hf : w.channels.find? (fun c => c.id == cid) with
    | none => rfl
    | some c =>
      dsimp only
      by_cases hl : (c.state == .opened || c.state == .connecting) = true
      · rw [if_pos hl, setChanState_map_id]
      · rw [if_neg hl]

theorem disconnect_dead (w : World) (hInv : ConnInv w) :
    ∀ c ∈ (disconnect w).channels, liveB c = false := by
  obtain ⟨hbound, hpair, hlive⟩ := hInv
  intro c hc
  rw [disconnect_channels] at hc
  cases hs : w.socket with
  | none =>
    simp only [hs] at hc
    cases hl : liveB c with
    | false => rfl
    | true =>
      have h2 := (hlive c hc hl).symm.trans hs
      simp at h2
  | some cid =>
    simp only [hs] at hc
    cases hf : w.channels.find? (fun c => c.id == cid) with
    | none =>
      simp only [hf] at hc
      cases hl : liveB c with
      | false => rfl
      | true =>
        have hcid : c.id = cid := Option.some.inj ((hlive c hc hl).symm.trans hs)
        have h2 := List.find?_eq_none.mp hf c hc
        simp [hcid] at h2
    | some cfound =>
      simp only [hf] at hc
      by_cases hl2 : (cfound.state == .opened || cfound.state == .connecting) = true
      · simp only [hl2, if_true] at hc
        obtain ⟨c', hc', hceq⟩ := mem_setChanState hc
        by_cases hid : (c'.id == cid) = true
        · rw [hceq, if_pos hid]
          rfl
        · rw [hceq, if_neg hid]
          cases hl : liveB c' with
          | false => rfl
          | true =>
            have hcid : c'.id = cid := Option.some.inj ((hlive c' hc' hl).symm.trans hs)
            exact absurd (by simp [hcid] : (c'.id == cid) = true) hid
      · simp only [hl2, if_false, Bool.false_eq_true] at hc
        cases hl : liveB c with
        | false => rfl
        | true =>
          have hcid : c.id = cid := Option.some.inj ((hlive c hc hl).symm.trans hs)
          have hcfid : cfound.id = cid := by
            have h0 := List.find?_some hf
            simpa using h0
          have hcfmem := List.mem_of_find?_eq_some hf
          have hceq : c = cfound := pairwise_id_eq hpair hc hcfmem (hcid.trans hcfid.symm)
          rw [hceq] at hl
          simp only [liveB, Bool.or_eq_true] at hl
          simp only [Bool.or_eq_true] at hl2
          rcases hl with h | h <;> simp [h] at hl2

theorem disconnect_socket (w : World) : (disconnect w).socket = none := rfl

theorem connect_channels (env : Env) (u : UserInfo) (w : World) :
    (connect env u w).channels = w.channels ++
      [{ id := w.nextChanId, url := getWebSocketUrl env w.customServerUrl,
         state := .connecting }] := by
  unfold connect
  dsimp only
  rw [clearReconnectTimer_channels, clearReconnectTimer_nextChanId,
    clearReconnectTimer_customServerUrl]

theorem connect_socket (env : Env) (u : UserInfo) (w : World) :
    (connect env u w).socket = some w.nextChanId := by
  unfold connect
  dsimp only
  rw [clearReconnectTimer_nextChanId]

theorem connect_nextChanId (env : Env) (u : UserInfo) (w : World) :
    (connect env u w).nextChanId = w.nextChanId + 1 := by
  unfold connect
  dsimp only
  rw [clearReconnectTimer_nextChanId]

theorem connect_userInfo (env : Env) (u : UserInfo) (w : World) :
    (connect env u w).userInfo = some u := by
  unfold connect
  dsimp only
  rw [clearReconnectTimer_userInfo]

theorem connect_reconnectTimer (env : Env) (u : UserInfo) (w : World) :
    (connect env u w).reconnectTimer = none := by
  unfold connect
  dsimp only
  rw [clearReconnectTimer_none]

theorem connect_customServerUrl (env : Env) (u : UserInfo) (w : World) :
    (connect env u w).customServerUrl = w.customServerUrl := by
  unfold connect
  dsimp only
  rw [clearReconnectTimer_customServerUrl]

theorem evtOpen_cases (w : World) (cid : Nat) :
    evtOpen w cid = w ∨
    ((evtOpen w cid).channels = setChanState cid .opened w.channels ∧
     (evtOpen w cid).socket = w.socket ∧
     (evtOpen w cid).nextChanId = w.nextChanId ∧
     ∃ c ∈ w.channels, c.id = cid ∧ c.state = .connecting) := by
  unfold evtOpen
  cases hf : w.channels.find? (fun c => c.id == cid) with
  | none => exact Or.inl rfl
  | some c =>
    dsimp only
    by_cases hcs : (c.state == .connecting) = true
    · rw [if_pos hcs]
      have hex : ∃ x ∈ w.channels, x.id = cid ∧ x.state = .connecting := by
        refine ⟨c, List.mem_of_find?_eq_some hf, ?_, beq_iff_eq.mp hcs⟩
        have h0 := List.find?_some hf
        simpa using h0
      refine Or.inr ?_
      cases hu : w.userInfo with
      | some u =>
        obtain ⟨fs, hsf⟩ := sendJoinFrame_eq
          { w with channels := setChanState cid .opened w.channels, connected := true } u
        rw [hu] at hsf
        dsimp only
        rw [hsf]
        exact ⟨rfl, rfl, rfl, hex⟩
      | none => exact ⟨rfl, rfl, rfl, hex⟩
    · rw [if_neg hcs]
      exact Or.inl rfl

theorem connect_inv (env : Env) (u : UserInfo) (w : World)
    (hdead : ∀ c ∈ w.channels, liveB c = false)
    (hbound : ∀ c ∈ w.channels, c.id < w.nextChanId)
    (hpair : w.channels.Pairwise (fun a b => a.id ≠ b.id)) :
    ConnInv (connect env u w) := by
  refine ⟨?_, ?_, ?_⟩
  · intro c hc
    rw [connect_channels] at hc
    rw [connect_nextChanId]
    rcases List.mem_append.mp hc with h | h
    · exact Nat.lt_succ_of_lt (hbound c h)
    · rw [List.mem_singleton.mp h]
      exact Nat.lt_succ_self _
  · rw [connect_channels]
    rw [List.pairwise_append]
    refine ⟨hpair, List.pairwise_singleton .., ?_⟩
    intro a ha b hb
    rw [List.mem_singleton.mp hb]
    exact Nat.ne_of_lt (hbound a ha)
  · intro c hc hl
    rw [connect_channels] at hc
    rw [connect_socket]
    rcases List.mem_append.mp hc with h | h
    · have h2 := (hdead c h).symm.trans hl
      simp at h2
    · rw [List.mem_singleton.mp h]

theorem joinInstance_inv (env : Env) (iid : String) (aid : Option String)
    (uid un : String) (su : Option String) (w : World) (hInv : ConnInv w) :
    ConnInv (joinInstance env iid aid uid un su w).1 := by
  have hd := disconnect_dead w hInv
  obtain ⟨hbound, hpair, hlive⟩ := hInv
  have hb2 : ∀ c ∈ (disconnect w).channels, c.id < (disconnect w).nextChanId := by
    intro c hc
    rw [disconnect_nextChanId]
    have h1 : c.id ∈ (disconnect w).channels.map (·.id) := List.mem_map_of_mem _ hc
    rw [disconnect_channels_map_id] at h1
    obtain ⟨c', hc', hid⟩ := List.mem_map.mp h1
    rw [← hid]
    exact hbound c' hc'
  have hp2 : (disconnect w).channels.Pairwise (fun a b => a.id ≠ b.id) := by
    have h1 : ((disconnect w).channels.map (·.id)).Pairwise (· ≠ ·) := by
      rw [disconnect_channels_map_id]
      exact List.pairwise_map.mpr hpair
    exact List.pairwise_map.mp h1
  exact connect_inv env _ _ hd hb2 hp2

theorem evtOpen_inv (w : World) (cid : Nat) (hInv : ConnInv w) :
    ConnInv (evtOpen w cid) := by
  rcases evtOpen_cases w cid with h | ⟨hch, hsock, hnext, c0, hc0, hcid0, hcs0⟩
  · rw [h]; exact hInv
  · obtain ⟨hbound, hpair, hlive⟩ := hInv
    have hs0 : w.socket = some cid := by
      have h1 := hlive c0 hc0 (by simp [liveB, hcs0])
      rw [hcid0] at h1
      exact h1
    refine ⟨?_, ?_, ?_⟩
    · intro c hc
      rw [hch] at hc
      rw [hnext]
      obtain ⟨c', hc', hceq⟩ := mem_setChanState hc
      have h2 : c.id = c'.id := by rw [hceq]; exact setChan_id ..
      rw [h2]
      exact hbound c' hc'
    · rw [hch]
      exact setChanState_pairwise hpair cid .opened
    · intro c hc hl
      rw [hch] at hc
      rw [hsock, hs0]
      obtain ⟨c', hc', hceq⟩ := mem_setChanState hc
      by_cases hid : (c'.id == cid) = true
      · rw [hceq, if_pos hid]
        have h3 : c'.id = cid := beq_iff_eq.mp hid
        rw [← h3]
      · rw [hceq, if_neg hid] at hl
        have h2 := (hlive c' hc' hl).symm.trans hs0
        exact absurd (beq_iff_eq.mpr (Option.some.inj h2)) hid

theorem run_inv (env : Env) (steps : List Step) (w : World) (hInv : ConnInv w)
    (hok : ∀ s ∈ steps, stepJoinOrOpen s = true) : ConnInv (run env steps w) := by
  induction steps generalizing w with
  | nil => exact hInv
  | cons s rest ih =>
    have hs := hok s (List.mem_cons_self s rest)
    have hrest : ∀ x ∈ rest, stepJoinOrOpen x = true :=
      fun x hx => hok x (List.mem_cons_of_mem s hx)
    show ConnInv (run env rest (applyStep env s w))
    refine ih (applyStep env s w) ?_ hrest
    cases s with
    | callConnect u => simp [stepJoinOrOpen] at hs
    | callJoin iid aid uid un su => exact joinInstance_inv env iid aid uid un su w hInv
    | callDisconnect => simp [stepJoinOrOpen] at hs
    | evOpen cid => exact evtOpen_inv w cid hInv
    | evClose cid => simp [stepJoinOrOpen] at hs
    | evTimer tid => simp [stepJoinOrOpen] at hs

theorem connInv_at_most_one_live (w : World) (hInv : ConnInv w) :
    (w.channels.filter liveB).length ≤ 1 := by
  obtain ⟨hbound, hpair, hlive⟩ := hInv
  have hp2 : (w.channels.filter liveB).Pairwise (fun a b => a.id ≠ b.id) :=
    hpair.sublist (List.filter_sublist _)
  cases hf : w.channels.filter liveB with
  | nil => simp
  | cons a t =>
    cases t with
    | nil => simp
    | cons b t2 =>
      exfalso
      have ha : a ∈ w.channels.filter liveB := by rw [hf]; exact List.mem_cons_self ..
      have hb : b ∈ w.channels.filter liveB := by
        rw [hf]
        exact List.mem_cons_of_mem a (List.mem_cons_self ..)
      have h1 := hlive a (List.mem_of_mem_filter ha) (List.of_mem_filter ha)
      have h2 := hlive b (List.mem_of_mem_filter hb) (List.of_mem_filter hb)
      have hab : a.id = b.id := Option.some.inj (h1.symm.trans h2)
      rw [hf] at hp2
      exact (List.pairwise_cons.mp hp2).1 b (List.mem_cons_self ..) hab

/-! ## Claim theorems: connection manager -/

/-- C1 counterexample: (a) after connect, open, connect, the first channel
is still open (connect performs no teardown of the previous channel);
(b) after connect, open, connect, open, two channels are open at once;
(c) even a joinInstance-only call sequence leaves two channels open once
the close event of a torn-down channel is delivered, because the onclose
callback nulls the socket reference, so the next joinInstance's disconnect
closes nothing. -/
theorem C1_counterexample :
    (run env0 [Step.callConnect user0, Step.evOpen 0, Step.callConnect user0]
        initWorld).channels =
      [{ id := 0, url := "wss://localhost:5173/ws", state := .opened },
       { id := 1, url := "wss://localhost:5173/ws", state := .connecting }] ∧
    ((run env0 [Step.callConnect user0, Step.evOpen 0, Step.callConnect user0,
        Step.evOpen 1] initWorld).channels.filter liveB).length = 2 ∧
    ((run env0 [Step.callJoin "inst-1" none "u1" "Alice" none, Step.evOpen 0,
        Step.callJoin "inst-2" none "u1" "Alice" none, Step.evClose 0,
        Step.callJoin "inst-3" none "u1" "Alice" none, Step.evOpen 1,
        Step.evOpen 2] initWorld).channels.filter liveB).length = 2 := by
  refine ⟨by decide, rfl, rfl⟩

/-- C1 amended: joinInstance always tears down the previously referenced
channel before opening a new one, so along any sequence of joinInstance
calls and channel open events at most one channel is open or connecting at
every observation point; the original claim fails for direct connect calls
(no teardown) and once close events or the reconnect timer interleave. -/
theorem C1_amended_at_most_one_live (env : Env) (steps : List Step)
    (h : ∀ s ∈ steps, stepJoinOrOpen s = true) :
    ((run env steps initWorld).channels.filter liveB).length ≤ 1 :=
  connInv_at_most_one_live _
    (run_inv env steps initWorld
      ⟨fun c hc => absurd hc (by simp [initWorld]),
       by simp [initWorld],
       fun c hc => absurd hc (by simp [initWorld])⟩ h)

/-- Witness for C1 amended at a concrete joinInstance/open trace. -/
theorem C1_amended_witness :
    ((run env0 [Step.callJoin "inst-1" none "u1" "Alice" none, Step.evOpen 0,
      Step.callJoin "inst-2" (some "act-9") "u1" "Alice" (some "custom.example.com")]
      initWorld).channels.filter liveB).length ≤ 1 :=
  C1_amended_at_most_one_live env0 _ (by decide)

/-- C2: the code contradicts the claim that disconnect() clears the stored
identity and prevents any automatic reconnection. After connect, open,
disconnect, the identity is still stored; when the closed channel's close
callback then fires, a 5000 ms reconnect timeout is scheduled, and when it
fires a fresh connection attempt is made. -/
theorem C2_disconnect_reconnect_bug :
    (run env0 [Step.callConnect user0, Step.evOpen 0, Step.callDisconnect]
        initWorld).userInfo = some user0 ∧
    (run env0 [Step.callConnect user0, Step.evOpen 0, Step.callDisconnect]
        initWorld).reconnectTimer = none ∧
    (run env0 [Step.callConnect user0, Step.evOpen 0, Step.callDisconnect,
        Step.evClose 0] initWorld).timers = [{ id := 0, delayMs := 5000 }] ∧
    (run env0 [Step.callConnect user0, Step.evOpen 0, Step.callDisconnect,
        Step.evClose 0] initWorld).reconnectTimer = some 0 ∧
    (run env0 [Step.callConnect user0, Step.evOpen 0, Step.callDisconnect,
        Step.evClose 0, Step.evTimer 0] initWorld).channels =
      [{ id := 0, url := "wss://localhost:5173/ws", state := .closed },
       { id := 1, url := "wss://localhost:5173/ws", state := .connecting }] :=
  ⟨rfl, rfl, rfl, rfl, by decide⟩

/-- C3: joinInstance performs disconnect, then installs the override URL,
then builds the fresh identity (activityId only when truthy), then a fresh
connect, so after any joinInstance call the stored identity is exactly the
new one, the override is installed, and no reconnect timer is pending; and
in the concrete two-join scenario exactly one channel is live afterwards,
addressed at the override-derived URL ws://custom.example.com/ws and with
the second call's identity, the first channel having been torn down. -/
theorem C3_join_instance_scenario :
    (∀ (env : Env) (iid : String) (aid : Option String) (uid un : String)
        (su : Option String) (w : World),
      (joinInstance env iid aid uid un su w).1.userInfo =
        some { userId := uid, username := un, instanceId := some iid,
               activityId := jsOrNull aid } ∧
      (joinInstance env iid aid uid un su w).1.customServerUrl = jsOrNull su ∧
      (joinInstance env iid aid uid un su w).1.reconnectTimer = none) ∧
    ((run env0 [Step.callJoin "inst-1" none "u1" "Alice" none, Step.evOpen 0,
        Step.callJoin "inst-2" (some "act-9") "u1" "Alice" (some "custom.example.com")]
        initWorld).channels.filter liveB =
      [{ id := 1, url := "ws://custom.example.com/ws", state := .connecting }] ∧
     (run env0 [Step.callJoin "inst-1" none "u1" "Alice" none, Step.evOpen 0,
        Step.callJoin "inst-2" (some "act-9") "u1" "Alice" (some "custom.example.com")]
        initWorld).userInfo =
      some { userId := "u1", username := "Alice", instanceId := some "inst-2",
             activityId := some "act-9" } ∧
     (run env0 [Step.callJoin "inst-1" none "u1" "Alice" none, Step.evOpen 0,
        Step.callJoin "inst-2" (some "act-9") "u1" "Alice" (some "custom.example.com")]
        initWorld).channels.head?.map (·.state) = some .closing) := by
  refine ⟨?_, by decide, by decide, by decide⟩
  intro env iid aid uid un su w
  refine ⟨?_, ?_, ?_⟩
  · simp only [joinInstance]
    exact connect_userInfo ..
  · simp only [joinInstance]
    rw [connect_customServerUrl]
  · simp only [joinInstance]
    exact connect_reconnectTimer ..

/-- C5: from a connected state with a stored identity, no pending timeout
and one open channel, the close event schedules exactly one reconnection
timeout with the fixed 5000 ms delay; firing it performs a fresh connection
attempt (one new channel, the only live one); calling disconnect() before
it fires cancels it, after which no timer can fire and no connection
attempt occurs; and if no identity is stored when close fires, nothing is
scheduled. -/
theorem C5_reconnect_schedule_and_cancel (env : Env) (u : UserInfo) (url : String)
    (cs : Option String) :
    let w0 : World := { initWorld with
                        channels := [{ id := 0, url := url, state := .opened }],
                        nextChanId := 1, socket := some 0, connected := true,
                        userInfo := some u, customServerUrl := cs }
    let w1 := evtClose w0 0
    (w1.timers = [{ id := 0, delayMs := 5000 }] ∧ w1.reconnectTimer = some 0) ∧
    ((evtTimer env 0 w1).channels.length = 2 ∧
      (evtTimer env 0 w1).channels.filter liveB =
        [{ id := 1, url := getWebSocketUrl env cs, state := .connecting }]) ∧
    ((disconnect w1).timers = [] ∧ (disconnect w1).reconnectTimer = none ∧
      (disconnect w1).channels = [{ id := 0, url := url, state := .closed }] ∧
      ∀ tid, evtTimer env tid (disconnect w1) = disconnect w1) ∧
    (let w2 : World := { initWorld with
                         channels := [{ id := 0, url := url, state := .opened }],
                         nextChanId := 1, socket := some 0, connected := true,
                         userInfo := none, customServerUrl := cs }
     (evtClose w2 0).timers = [] ∧ (evtClose w2 0).reconnectTimer = none) :=
  ⟨⟨rfl, rfl⟩, ⟨rfl, rfl⟩, ⟨rfl, rfl, rfl, fun _ => rfl⟩, ⟨rfl, rfl⟩⟩

/-- C10: joinInstance returns the constant true whatever its arguments and
whatever the current state: the success flag never reports failure. -/
theorem C10_join_returns_true (env : Env) (iid : String) (aid : Option String)
    (uid un : String) (su : Option String) (w : World) :
    (joinInstance env iid aid uid un su w).2 = true := rfl
